import Mathlib

/-! publicdns-detector: the DNS request check, the responder and the client registry

A shallow embedding of `main.go`.

* A Go `string` is a sequence of bytes; it is modelled as `List Char`, one `Char`
  per byte.  Every operation of the program on strings is an index, a slice or a
  comparison of single bytes, so nothing depends on the width of an element.
* A Go run-time panic (index out of range) is the result `none`.
* The functions of `github.com/miekg/dns` that `main.go` calls, and whose code is
  not part of the repository, are the fields of `DnsLib`: the program is a
  function of them.  `miekg` is the instance used to run the program on concrete
  inputs.
-/

/-- A Go string: its bytes in order. -/
abbrev GoString := List Char

namespace dns

/-- The constant `dns.TypeA`. -/
def TypeA : Nat := 1

/-- The constant `dns.TypeAAAA`. -/
def TypeAAAA : Nat := 28

/-- The constant `dns.ClassINET`. -/
def ClassINET : Nat := 1

/-- The constant `dns.RcodeSuccess`. -/
def RcodeSuccess : Nat := 0

/-- The constant `dns.RcodeServerFailure`. -/
def RcodeServerFailure : Nat := 2

/-- One entry of the question section (`dns.Question`). -/
structure Question where
  Name : GoString
  Qtype : Nat
  Qclass : Nat
deriving DecidableEq, Repr

/-- A resource record as `main.go` looks at it: the header fields and the address
of an A or AAAA record, in its text form. -/
structure RR where
  Name : GoString
  Rrtype : Nat
  Class : Nat
  Ttl : Nat
  Addr : GoString
deriving DecidableEq, Repr

/-- The fields of `dns.Msg` that the program reads or writes. -/
structure Msg where
  Id : Nat
  Response : Bool
  Authoritative : Bool
  Rcode : Nat
  Question : List Question
  Answer : List RR
deriving DecidableEq, Repr

end dns

/-- The functions of the library `github.com/miekg/dns` that `main.go` calls on
names and record texts.  Their code is not in the repository, so the program is
modelled for every such triple of functions. -/
structure DnsLib where
  /-- The library function `dns.IsFqdn`. -/
  IsFqdn : GoString → Bool
  /-- The library function `dns.IsSubDomain parent child`. -/
  IsSubDomain : GoString → GoString → Bool
  /-- The library function `dns.NewRR`: `none` when it returns an error or no record. -/
  NewRR : GoString → Option dns.RR

/-- The byte `s[i]` of a Go string, `none` for an index out of range (a panic). -/
def byteAt (s : GoString) (i : Int) : Option Char :=
  if i < 0 then none else s.get? i.toNat

namespace strings

/-- The Go function `strings.Contains s sub`. -/
def Contains : GoString → GoString → Bool
  | [], sub => sub.isEmpty
  | c :: t, sub => sub.isPrefixOf (c :: t) || Contains t sub

/-- The Go function `strings.Split s sep` for a separator of one byte. -/
def Split : GoString → Char → List GoString
  | [], _ => [[]]
  | c :: t, sep =>
    if c = sep then [] :: Split t sep
    else match Split t sep with
      | [] => [[c]]
      | h :: r => (c :: h) :: r

end strings

/-- The value of a text of decimal digits, `none` for any other text. -/
def parseDigits (s : GoString) : Option Nat :=
  if s ≠ [] ∧ s.all Char.isDigit then
    some (s.foldl (fun n c => 10 * n + (c.toNat - '0'.toNat)) 0)
  else none

/-- The function `checkRequest` of main.go, lines 146-171, for the zone `zone`. -/
def checkRequest (lib : DnsLib) (zone : GoString) (r : dns.Msg) : Option Bool :=
  if r.Question.length ≠ 1 then some false
  else match r.Question.get? 0 with
    | none => none
    | some q =>
      if q.Qclass ≠ dns.ClassINET then some false
      else if q.Qtype ≠ dns.TypeA ∧ q.Qtype ≠ dns.TypeAAAA then some false
      else match byteAt q.Name ((q.Name.length : Int) - 1) with
        | none => none
        | some c =>
          if c ≠ '.' then some false
          else if strings.Contains q.Name "..".toList then some false
          else if !lib.IsFqdn q.Name then some false
          else if !lib.IsSubDomain zone q.Name then some false
          else some true

/-! ## The library instance -/

namespace dns

/-- The number of backslashes that stand directly before index `i` of `s`. -/
def backslashesBefore (s : GoString) (i : Nat) : Nat :=
  ((s.take i).reverse.takeWhile (fun c => c = '\\')).length

/-- The library function `IsFqdn`: the name ends with a dot that is not escaped,
that is, one with an even number of backslashes before it. -/
def IsFqdn (s : GoString) : Bool :=
  match s.getLast? with
  | some '.' => backslashesBefore s (s.length - 1) % 2 = 0
  | _ => false

/-- The loop of `NextLabel`: from index `i`, the index after the first dot that
is not escaped and is not the last byte; `true` when there is none. -/
def nextLabelLoop (s : GoString) : Nat → Nat → Nat × Bool
  | 0, i => (i + 1, true)
  | fuel + 1, i =>
    if i + 1 < s.length then
      if s.get? i ≠ some '.' then nextLabelLoop s fuel (i + 1)
      else if (backslashesBefore s i + 1) % 2 = 0 then nextLabelLoop s fuel (i + 1)
      else (i + 1, false)
    else (i + 1, true)

/-- The library function `NextLabel s offset`. -/
def NextLabel (s : GoString) (offset : Nat) : Nat × Bool :=
  if s = [] then (0, true) else nextLabelLoop s s.length offset

/-- The loop of `Split`: the label starts after `off`. -/
def splitLoop (s : GoString) : Nat → Nat → List Nat
  | 0, _ => []
  | fuel + 1, off =>
    match NextLabel s off with
    | (_, true) => []
    | (next, false) => next :: splitLoop s fuel next

/-- The library function `Split`: the index at which each label of `s` starts. -/
def Split (s : GoString) : List Nat :=
  if s = ".".toList then [] else 0 :: splitLoop s s.length 0

/-- The library function `CountLabel`. -/
def CountLabel (s : GoString) : Nat :=
  (Split s).length

/-- The slices `s[l[i]:l[i+1]]` of `s` at the label starts `l`, the last one
running to the end of `s`. -/
def labelSlices (s : GoString) : List Nat → List GoString
  | [] => []
  | [a] => [s.drop a]
  | a :: b :: t => ((s.take b).drop a) :: labelSlices s (b :: t)

/-- One byte with an upper-case ASCII letter made lower-case. -/
def lowerByte (c : Char) : Char :=
  if 'A' ≤ c ∧ c ≤ 'Z' then Char.ofNat (c.toNat + 32) else c

/-- The library function `equal`: the two slices agree, ASCII letters compared
without case. -/
def equal (a b : GoString) : Bool :=
  a.map lowerByte = b.map lowerByte

/-- How many leading entries of two lists of labels are `equal`. -/
def commonLabels : List GoString → List GoString → Nat
  | a :: as, b :: bs => if equal a b then commonLabels as bs + 1 else 0
  | _, _ => 0

/-- The library function `CompareDomainName`: the number of labels the two names
have in common, counted from the right. -/
def CompareDomainName (s1 s2 : GoString) : Nat :=
  if s1 = ".".toList ∨ s2 = ".".toList then 0
  else commonLabels (labelSlices s1 (Split s1)).reverse (labelSlices s2 (Split s2)).reverse

/-- The library function `IsSubDomain parent child`. -/
def IsSubDomain (parent child : GoString) : Bool :=
  CompareDomainName parent child = CountLabel parent

/-- One field of a dotted IPv4 literal: decimal, no leading zero, at most 255. -/
def ipv4Field (f : GoString) : Bool :=
  match parseDigits f with
  | some n => n ≤ 255 ∧ (f.length = 1 ∨ f.head? ≠ some '0')
  | none => false

/-- The text is an IPv4 literal `a.b.c.d`. -/
def isIPv4 (s : GoString) : Bool :=
  let fs := strings.Split s '.'
  fs.length = 4 ∧ fs.all ipv4Field

/-- One group of an IPv6 literal: one to four hexadecimal digits. -/
def ipv6Group (g : GoString) : Bool :=
  1 ≤ g.length ∧ g.length ≤ 4 ∧ g.all (fun c => c.isDigit ∨ ('a' ≤ c ∧ c ≤ 'f') ∨ ('A' ≤ c ∧ c ≤ 'F'))

/-- The groups on one side of a `::`, none for the empty text. -/
def ipv6Side (s : GoString) : List GoString :=
  if s = [] then [] else strings.Split s ':'

/-- Cut a text at its first `::`. -/
def cutDoubleColon : GoString → Option (GoString × GoString)
  | [] => none
  | [_] => none
  | a :: b :: t =>
    if a = ':' ∧ b = ':' then some ([], t)
    else (cutDoubleColon (b :: t)).map (fun p => (a :: p.1, p.2))

/-- The text is an IPv6 literal written in hexadecimal groups, with at most one
`::` (the forms with an embedded IPv4 address or a zone are left out). -/
def isIPv6 (s : GoString) : Bool :=
  match cutDoubleColon s with
  | none => (strings.Split s ':').length = 8 ∧ (strings.Split s ':').all ipv6Group
  | some (l, r) =>
    (ipv6Side l ++ ipv6Side r).length ≤ 7 ∧ (ipv6Side l ++ ipv6Side r).all ipv6Group

/-- The bytes that the zone-file reader treats specially inside a token. -/
def zoneSpecial (c : Char) : Bool :=
  c = '\\' ∨ c = '"' ∨ c = '(' ∨ c = ')' ∨ c = ';' ∨ c = '$' ∨ c = '@' ∨ c = '\t' ∨ c = '\n' ∨ c = '\r'

/-- The record reader used to run the program on concrete inputs.  It reads the
one-line texts `owner ttl IN A a.b.c.d` and `owner ttl IN AAAA v6` that
`handleDNS` builds: five fields with one blank between them, a fully qualified
owner with labels of 1 to 63 bytes and at most 254 bytes in all, a decimal TTL
below 2^32, and an address literal of the record's family.  A text with a byte
of `zoneSpecial` lies outside what it reads and is refused. -/
def NewRR (text : GoString) : Option RR :=
  if text.any zoneSpecial then none
  else match strings.Split text ' ' with
    | [owner, ttl, cls, ty, addr] =>
      match parseDigits ttl with
      | none => none
      | some t =>
        if ¬ (IsFqdn owner ∧ owner.length ≤ 254 ∧
              (owner = ".".toList ∨
                (strings.Split owner.dropLast '.').all (fun l => 1 ≤ l.length ∧ l.length ≤ 63))) then none
        else if t ≥ 2 ^ 32 then none
        else if cls ≠ "IN".toList then none
        else if ty = "A".toList then
          if isIPv4 addr then some ⟨owner, TypeA, ClassINET, t, addr⟩ else none
        else if ty = "AAAA".toList then
          if isIPv6 addr then some ⟨owner, TypeAAAA, ClassINET, t, addr⟩ else none
        else none
    | _ => none

/-- The library method `Msg.SetReply`: a reply to `request`, with its id and its
first question. -/
def SetReply (request : Msg) : Msg :=
  { Id := request.Id, Response := true, Authoritative := false, Rcode := RcodeSuccess,
    Question := request.Question.take 1, Answer := [] }

/-- The message that `dns.HandleFailed w r` writes: a reply to `r` with the code
SERVFAIL. -/
def HandleFailed (r : Msg) : Msg :=
  { SetReply r with Rcode := RcodeServerFailure }

end dns

/-- The library functions as `github.com/miekg/dns` documents them, to run the
program on concrete inputs. -/
def miekg : DnsLib :=
  { IsFqdn := dns.IsFqdn, IsSubDomain := dns.IsSubDomain, NewRR := dns.NewRR }

/-! ## Configuration and state -/

/-- The package-level configuration variables of main.go that the handlers read. -/
structure Config where
  serverAddr : GoString
  serverAddrIPv6 : GoString
  ttl : Int
  zone : GoString
deriving DecidableEq, Repr

/-- The default values of main.go, lines 42-54. -/
def defaultConfig : Config :=
  { serverAddr := "192.0.2.1".toList, serverAddrIPv6 := "2001:db8::1".toList, ttl := 60,
    zone := "zonetest.zone.tld.".toList }

/-- The type `Clients` of main.go: a map from host name to address, kept as the
list of its entries. -/
abbrev Clients := List (GoString × GoString)

/-- The map read `m[k]` with its `ok` result. -/
def Clients.get : Clients → GoString → Option GoString
  | [], _ => none
  | (k1, v1) :: t, k => if k1 = k then some v1 else Clients.get t k

/-- The map write `m[k] = v`. -/
def Clients.set : Clients → GoString → GoString → Clients
  | [], k, v => [(k, v)]
  | (k1, v1) :: t, k, v => if k1 = k then (k, v) :: t else (k1, v1) :: Clients.set t k v

/-- The mutable globals of main.go: the registry and the two Prometheus counters. -/
structure State where
  dnsClients : Clients
  uniqueIPs : Nat
  totalRequests : Nat
deriving DecidableEq, Repr

/-- The state at process start: an empty registry and both counters at zero. -/
def State.init : State :=
  { dnsClients := [], uniqueIPs := 0, totalRequests := 0 }

/-- The function `isNewIP` of main.go, lines 134-143: no value of the registry is `ip`. -/
def isNewIP : Clients → GoString → Bool
  | [], _ => true
  | (_, v) :: t, ip => if v = ip then false else isNewIP t ip

/-- The verb `%d` of `fmt.Sprintf` on an `int`. -/
def itoa (n : Int) : GoString :=
  if n < 0 then '-' :: Nat.toDigits 10 n.natAbs else Nat.toDigits 10 n.toNat

/-- The text `fmt.Sprintf("%s %d IN <ty> %s", name, ttl, addr)` of lines 198 and 202. -/
def recordText (name : GoString) (ttl : Int) (ty addr : GoString) : GoString :=
  name ++ " ".toList ++ itoa ttl ++ " IN ".toList ++ ty ++ " ".toList ++ addr

/-- The switch of handleDNS, lines 195-204: the record built for the question. -/
def answerRecord (lib : DnsLib) (cfg : Config) (q : dns.Question) : Option dns.RR :=
  if q.Qtype = dns.TypeA then
    lib.NewRR (recordText q.Name cfg.ttl "A".toList cfg.serverAddr)
  else if q.Qtype = dns.TypeAAAA then
    lib.NewRR (recordText q.Name cfg.ttl "AAAA".toList cfg.serverAddrIPv6)
  else none

/-- The expression `strings.Split(w.RemoteAddr().String(), ":")[0]` of line 208. -/
def remoteIP (remoteAddr : GoString) : Option GoString :=
  (strings.Split remoteAddr ':').get? 0

/-- The slice `Name[:len(Name)-1]` of line 207, a panic on the empty name. -/
def withoutDot (name : GoString) : Option GoString :=
  if name.length = 0 then none else some (name.take (name.length - 1))

/-- Lines 207-214 of handleDNS: the unique-address count and the registry write. -/
def record (st : State) (host ip : GoString) : State :=
  { st with
    uniqueIPs := if isNewIP st.dnsClients ip then st.uniqueIPs + 1 else st.uniqueIPs,
    dnsClients := st.dnsClients.set host ip }

/-- The function `handleDNS` of main.go, lines 174-218.  `allow` is the answer of
`rateLimiter.Allow()` for this call and `remoteAddr` the text
`w.RemoteAddr().String()`; the result is the new state and the message written. -/
def handleDNS (lib : DnsLib) (cfg : Config) (allow : Bool) (remoteAddr : GoString)
    (r : dns.Msg) (st : State) : Option (State × dns.Msg) :=
  if !allow then some (st, dns.HandleFailed r)
  else match checkRequest lib cfg.zone r with
    | none => none
    | some false => some (st, dns.HandleFailed r)
    | some true =>
      match r.Question.get? 0 with
      | none => none
      | some q =>
        let st1 := { st with totalRequests := st.totalRequests + 1 }
        let m := { dns.SetReply r with Authoritative := true }
        match answerRecord lib cfg q with
        | none => some (st1, m)
        | some rr =>
          match withoutDot q.Name, remoteIP remoteAddr with
          | some host, some ip => some (record st1 host ip, { m with Answer := m.Answer ++ [rr] })
          | _, _ => none

/-- What `handleHTTPDns` answers. -/
inductive HTTPResponse where
  | TooManyRequests
  | OK (server : GoString)
  | NotFound
deriving DecidableEq, Repr

/-- The function `handleHTTPDns` of main.go, lines 229-249, for the request
header `Host = host`. -/
def handleHTTPDns (allow : Bool) (host : GoString) (st : State) : HTTPResponse :=
  if !allow then HTTPResponse.TooManyRequests
  else match st.dnsClients.get host with
    | some ip => HTTPResponse.OK ip
    | none => HTTPResponse.NotFound

/-- A query message with the single question `name`, `qtype`, class IN. -/
def query (name : GoString) (qtype : Nat) : dns.Msg :=
  { Id := 0, Response := false, Authoritative := false, Rcode := 0,
    Question := [⟨name, qtype, dns.ClassINET⟩], Answer := [] }

/-! ## The conditions of a valid request -/

/-- The conditions under which a request is valid, as the specification lists
them: one question, class IN, type A or AAAA, a name that ends with a dot, has no
two dots in a row, is fully qualified and lies in the zone. -/
def ValidRequest (lib : DnsLib) (zone : GoString) (r : dns.Msg) : Prop :=
  ∃ q, r.Question = [q] ∧ q.Qclass = dns.ClassINET ∧
    (q.Qtype = dns.TypeA ∨ q.Qtype = dns.TypeAAAA) ∧
    q.Name.getLast? = some '.' ∧ ¬ ("..".toList <:+: q.Name) ∧
    lib.IsFqdn q.Name = true ∧ lib.IsSubDomain zone q.Name = true


/-! ## Sequences of queries and peer addresses -/

/-- The function `handleDNS` on a sequence of queries, each with the text of its
peer address and each admitted by the rate limiter, one after the other. -/
def serveAll (lib : DnsLib) (cfg : Config) : List (GoString × dns.Msg) → State → Option State
  | [], st => some st
  | (remoteAddr, r) :: rest, st =>
    match handleDNS lib cfg true remoteAddr r st with
    | none => none
    | some (st1, _) => serveAll lib cfg rest st1

/-- The text `remoteAddr` of a peer address is the address `s`, which holds no
colon, alone (as `net.IPAddr` prints it) or followed by `:port` (as `net.UDPAddr`
prints an IPv4 peer). -/
def PeerOf (s remoteAddr : GoString) : Prop :=
  ':' ∉ s ∧ (remoteAddr = s ∨ ∃ port, remoteAddr = s ++ ':' :: port)

/-- The library reads the text `name ttl IN ty addr`, whenever it reads it as a
record at all, as the record that the text spells: owner `name`, type `code`,
class IN, TTL `ttl` and address `addr`. -/
def SpellsRecord (lib : DnsLib) (name : GoString) (ttl : Int) (ty : GoString) (code : Nat)
    (addr : GoString) : Prop :=
  ∀ rr, lib.NewRR (name ++ " ".toList ++ itoa ttl ++ " IN ".toList ++ ty ++ " ".toList ++ addr)
      = some rr →
    rr.Name = name ∧ rr.Rrtype = code ∧ rr.Class = dns.ClassINET ∧ (rr.Ttl : Int) = ttl ∧
      rr.Addr = addr

/-! ## Process start -/

namespace strconv

/-- The Go function `strconv.Atoi`: an optional sign and decimal digits, with a
value in the range of a 64-bit `int`; `none` when it returns an error. -/
def Atoi (s : GoString) : Option Int :=
  match s with
  | '-' :: t => (parseDigits t).bind (fun n => if n ≤ 2 ^ 63 then some (-(n : Int)) else none)
  | '+' :: t => (parseDigits t).bind (fun n => if n < 2 ^ 63 then some (n : Int) else none)
  | _ => (parseDigits s).bind (fun n => if n < 2 ^ 63 then some (n : Int) else none)

end strconv

/-- The environment of the process: what `os.LookupEnv` finds for a key. -/
abbrev Environ := GoString → Option GoString

/-- The function `getEnv` of main.go, lines 116-121. -/
def getEnv (env : Environ) (key fallback : GoString) : GoString :=
  match env key with
  | some value => value
  | none => fallback

/-- The function `getEnvAsInt` of main.go, lines 125-131. -/
def getEnvAsInt (env : Environ) (name : GoString) (defaultVal : Int) : Int :=
  match strconv.Atoi (getEnv env name []) with
  | some value => value
  | none => defaultVal

/-- The constant `_maxRequestsPerSecond` of main.go. -/
def _maxRequestsPerSecond : Int := 10

/-- The constant `_burstSize` of main.go. -/
def _burstSize : Int := 5

/-- A limiter of `golang.org/x/time/rate`: its refill rate in requests per second,
a `float64` given by the integer it equals, and its capacity. -/
structure Limiter where
  limit : Int
  burst : Int
deriving DecidableEq, Repr

namespace rate

/-- How many times `a` is halved until it is below 2^53. -/
def excessBits : Nat → Nat → Nat
  | 0, _ => 0
  | fuel + 1, a => if a < 2 ^ 53 then 0 else excessBits fuel (a / 2) + 1

/-- The conversion `rate.Limit(n)` of an `int` of 64 bits to `float64`, as the
integer that the result equals: `n` itself up to 2^53 in absolute value, and
beyond that `n` rounded to 53 significant bits, to the nearest value and to the
even one of two nearest. -/
def Limit (n : Int) : Int :=
  if n.natAbs ≤ 2 ^ 53 then n
  else
    let k := excessBits 64 n.natAbs
    let q := n.natAbs / 2 ^ k
    let r := n.natAbs % 2 ^ k
    let q1 := if 2 * r > 2 ^ k ∨ (2 * r = 2 ^ k ∧ q % 2 = 1) then q + 1 else q
    if n < 0 then -((q1 * 2 ^ k : Nat) : Int) else ((q1 * 2 ^ k : Nat) : Int)

/-- The library function `rate.NewLimiter r b`. -/
def NewLimiter (r : Int) (b : Int) : Limiter :=
  { limit := r, burst := b }

end rate

/-- The package-level variables of main.go that the rate limit is made of. -/
structure Globals where
  maxRequestsPerSecond : Int
  burstSize : Int
  rateLimiter : Limiter
deriving DecidableEq, Repr

/-- The values that the command line gives to the flags `-maxRequestsPerSecond`
and `-burstSize`, `none` for a flag that is not on the command line. -/
structure Flags where
  maxRequestsPerSecond : Option Int
  burstSize : Option Int
deriving DecidableEq, Repr

/-- The function `init` of main.go, lines 90-112: `flag.IntVar` stores the default
of each flag, taken from the environment, in its variable, and line 105 makes the
limiter from the two variables, the rate converted by `rate.Limit`. -/
def init (env : Environ) : Globals :=
  let maxRequestsPerSecond := getEnvAsInt env "MAX_REQUESTS_PER_SECOND".toList _maxRequestsPerSecond
  let burstSize := getEnvAsInt env "BURST_SIZE".toList _burstSize
  { maxRequestsPerSecond := maxRequestsPerSecond, burstSize := burstSize,
    rateLimiter := rate.NewLimiter (rate.Limit maxRequestsPerSecond) burstSize }

/-- The call `flag.Parse()` of line 322, the first statement of `run`: each flag
of the command line is stored in its variable. -/
def run (flags : Flags) (g : Globals) : Globals :=
  { g with
    maxRequestsPerSecond := flags.maxRequestsPerSecond.getD g.maxRequestsPerSecond,
    burstSize := flags.burstSize.getD g.burstSize }

/-- Process start: `init`, then `flag.Parse` in `run`. -/
def startup (env : Environ) (flags : Flags) : Globals :=
  run flags (init env)

/-! ## Concurrent responders -/

/-- Where a call of `handleDNS` stands in lines 209-214. -/
inductive Pc where
  | check
  | count
  | write
  | done
deriving DecidableEq, Repr

/-- A call of `handleDNS` that has built its record and reached line 209, with
the host and the address it is about to record and the answer of `isNewIP` once
it has it. -/
structure Worker where
  host : GoString
  ip : GoString
  pc : Pc
  isNew : Bool
deriving DecidableEq, Repr

/-- A worker at line 209. -/
def Worker.start (host ip : GoString) : Worker :=
  { host := host, ip := ip, pc := Pc.check, isNew := false }

/-- One atomic step of a worker on the shared state: the call of `isNewIP`, which
takes and releases `mu` (lines 134-143); the increment of the counter (line 210);
the write of the registry under `mu` (lines 212-214). -/
def Worker.step (w : Worker) (st : State) : Worker × State :=
  match w.pc with
  | Pc.check => ({ w with isNew := isNewIP st.dnsClients w.ip, pc := Pc.count }, st)
  | Pc.count =>
    ({ w with pc := Pc.write }, if w.isNew then { st with uniqueIPs := st.uniqueIPs + 1 } else st)
  | Pc.write => ({ w with pc := Pc.done }, { st with dnsClients := st.dnsClients.set w.host w.ip })
  | Pc.done => (w, st)

/-- Two workers and the shared state, run under a schedule: `false` lets the first
worker take its next step, `true` the second. -/
def runSchedule : List Bool → Worker × Worker × State → Worker × Worker × State
  | [], c => c
  | false :: rest, (w1, w2, st) => runSchedule rest ((w1.step st).1, w2, (w1.step st).2)
  | true :: rest, (w1, w2, st) => runSchedule rest (w1, (w2.step st).1, (w2.step st).2)
/-! ## The request check -/

theorem byteAt_last (s : GoString) : byteAt s ((s.length : Int) - 1) = s.getLast? := by
  rcases List.eq_nil_or_concat s with h | ⟨l, c, h⟩
  · subst h; rfl
  · subst h
    have h1 : ¬ ((↑(l.length + 1) : Int) - 1 < 0) := by omega
    have h2 : ((↑(l.length + 1) : Int) - 1).toNat = l.length := by omega
    simp [byteAt, h1, h2, List.getLast?_concat]

theorem strings.Contains_iff (s sub : GoString) :
    strings.Contains s sub = true ↔ sub <:+: s := by
  induction s with
  | nil => simp [strings.Contains, List.isEmpty_iff]
  | cons c t ih =>
    simp only [strings.Contains, Bool.or_eq_true, ih, List.isPrefixOf_iff_prefix]
    rw [List.infix_cons_iff]

theorem checkRequest_single (lib : DnsLib) (zone : GoString) (r : dns.Msg) (q : dns.Question)
    (hq : r.Question = [q]) :
    checkRequest lib zone r =
      if q.Qclass ≠ dns.ClassINET then some false
      else if q.Qtype ≠ dns.TypeA ∧ q.Qtype ≠ dns.TypeAAAA then some false
      else match q.Name.getLast? with
        | none => none
        | some c =>
          if c ≠ '.' then some false
          else if "..".toList <:+: q.Name then some false
          else if lib.IsFqdn q.Name = false then some false
          else if lib.IsSubDomain zone q.Name = false then some false
          else some true := by
  have hc : (strings.Contains q.Name "..".toList = true) = ("..".toList <:+: q.Name) :=
    propext (strings.Contains_iff _ _)
  unfold checkRequest
  simp only [hq, List.length_singleton, ne_eq, not_true_eq_false, if_false, List.get?_cons_zero,
    byteAt_last, hc, Bool.not_eq_true']

theorem checkRequest_not_single (lib : DnsLib) (zone : GoString) (r : dns.Msg)
    (h : r.Question.length ≠ 1) : checkRequest lib zone r = some false := by
  unfold checkRequest
  simp [h]

theorem checkRequest_true_iff (lib : DnsLib) (zone : GoString) (r : dns.Msg) :
    checkRequest lib zone r = some true ↔ ValidRequest lib zone r := by
  constructor
  · intro h
    by_cases hl : r.Question.length = 1
    · obtain ⟨q, hq⟩ := List.length_eq_one.mp hl
      refine ⟨q, hq, ?_⟩
      rw [checkRequest_single lib zone r q hq] at h
      by_cases h1 : q.Qclass = dns.ClassINET
      swap
      · simp [h1] at h
      by_cases h2 : q.Qtype = dns.TypeA ∨ q.Qtype = dns.TypeAAAA
      swap
      · have h2b : q.Qtype ≠ dns.TypeA ∧ q.Qtype ≠ dns.TypeAAAA := by
          constructor <;> intro hc <;> exact h2 (by simp [hc])
        simp [h1, h2b] at h
      have h2c : ¬ (q.Qtype ≠ dns.TypeA ∧ q.Qtype ≠ dns.TypeAAAA) := by
        rintro ⟨ha, hb⟩; rcases h2 with h2 | h2
        · exact ha h2
        · exact hb h2
      simp only [h1, ne_eq, not_true_eq_false, if_false, h2c] at h
      cases hn : q.Name.getLast? with
      | none => simp [hn] at h
      | some c =>
        simp only [hn] at h
        by_cases h3 : c = '.'
        swap
        · simp [h3] at h
        subst h3
        rw [if_neg (by simp)] at h
        by_cases h4 : "..".toList <:+: q.Name
        · rw [if_pos h4] at h; simp at h
        by_cases h5 : lib.IsFqdn q.Name = false
        · rw [if_neg h4, if_pos h5] at h; simp at h
        by_cases h6 : lib.IsSubDomain zone q.Name = false
        · rw [if_neg h4, if_neg h5, if_pos h6] at h; simp at h
        exact ⟨h1, h2, rfl, h4, by simpa using h5, by simpa using h6⟩
    · rw [checkRequest_not_single lib zone r hl] at h
      simp at h
  · rintro ⟨q, hq, h1, h2, h3, h4, h5, h6⟩
    have h2c : ¬ (q.Qtype ≠ dns.TypeA ∧ q.Qtype ≠ dns.TypeAAAA) := by
      rintro ⟨ha, hb⟩; rcases h2 with h2 | h2
      · exact ha h2
      · exact hb h2
    rw [checkRequest_single lib zone r q hq]
    simp only [h1, ne_eq, not_true_eq_false, if_false, h2c, h3, h4, h5, h6]
    simp

/-- A request with one question is refused with `false`, and without a panic, as
soon as its name is not empty and one of the conditions fails. -/
theorem checkRequest_false_of_invalid (lib : DnsLib) (zone : GoString) (r : dns.Msg)
    (q : dns.Question) (hq : r.Question = [q]) (hne : q.Name ≠ [])
    (hinv : ¬ ValidRequest lib zone r) : checkRequest lib zone r = some false := by
  have hiff := checkRequest_true_iff lib zone r
  rw [checkRequest_single lib zone r q hq] at hiff ⊢
  obtain ⟨c, hc⟩ : ∃ c, q.Name.getLast? = some c := by
    cases hn : q.Name.getLast? with
    | none => exact absurd (List.getLast?_eq_none_iff.mp hn) hne
    | some c => exact ⟨c, rfl⟩
  simp only [hc] at hiff ⊢
  by_contra hcon
  apply hinv
  apply hiff.mp
  split_ifs at hcon ⊢ <;> simp_all

theorem not_valid_of_single (lib : DnsLib) (zone : GoString) (r : dns.Msg) (q : dns.Question)
    (hq : r.Question = [q])
    (h : ¬ (q.Qclass = dns.ClassINET ∧ (q.Qtype = dns.TypeA ∨ q.Qtype = dns.TypeAAAA) ∧
      q.Name.getLast? = some '.' ∧ ¬ ("..".toList <:+: q.Name) ∧
      lib.IsFqdn q.Name = true ∧ lib.IsSubDomain zone q.Name = true)) :
    ¬ ValidRequest lib zone r := by
  rintro ⟨q1, hq1, hv⟩
  rw [hq] at hq1
  injection hq1 with hq1 _
  subst hq1
  exact h hv

theorem name_ne_nil_of_last (s : GoString) (c : Char) (h : s.getLast? = some c) : s ≠ [] := by
  rintro rfl
  simp at h

/-- C1: `checkRequest` returns `true` exactly when the message has one question,
of class IN and of type A or AAAA, whose name ends with a dot, has no two dots in
a row, is fully qualified and is the zone or lies under it; and a request that
breaks exactly one of these conditions and keeps the others gets `false`.  The
library is any whose `IsFqdn` refuses the empty name. -/
theorem checkRequest_spec (lib : DnsLib) (hfq : lib.IsFqdn [] = false) (zone : GoString)
    (r : dns.Msg) :
    (checkRequest lib zone r = some true ↔ ValidRequest lib zone r) ∧
    (r.Question.length ≠ 1 → checkRequest lib zone r = some false) ∧
    (∀ q, r.Question = [q] →
      (q.Qclass ≠ dns.ClassINET ∧ (q.Qtype = dns.TypeA ∨ q.Qtype = dns.TypeAAAA) ∧
        q.Name.getLast? = some '.' ∧ ¬ ("..".toList <:+: q.Name) ∧
        lib.IsFqdn q.Name = true ∧ lib.IsSubDomain zone q.Name = true →
        checkRequest lib zone r = some false) ∧
      (q.Qclass = dns.ClassINET ∧ ¬ (q.Qtype = dns.TypeA ∨ q.Qtype = dns.TypeAAAA) ∧
        q.Name.getLast? = some '.' ∧ ¬ ("..".toList <:+: q.Name) ∧
        lib.IsFqdn q.Name = true ∧ lib.IsSubDomain zone q.Name = true →
        checkRequest lib zone r = some false) ∧
      (q.Qclass = dns.ClassINET ∧ (q.Qtype = dns.TypeA ∨ q.Qtype = dns.TypeAAAA) ∧
        q.Name.getLast? ≠ some '.' ∧ ¬ ("..".toList <:+: q.Name) ∧
        lib.IsFqdn q.Name = true ∧ lib.IsSubDomain zone q.Name = true →
        checkRequest lib zone r = some false) ∧
      (q.Qclass = dns.ClassINET ∧ (q.Qtype = dns.TypeA ∨ q.Qtype = dns.TypeAAAA) ∧
        q.Name.getLast? = some '.' ∧ "..".toList <:+: q.Name ∧
        lib.IsFqdn q.Name = true ∧ lib.IsSubDomain zone q.Name = true →
        checkRequest lib zone r = some false) ∧
      (q.Qclass = dns.ClassINET ∧ (q.Qtype = dns.TypeA ∨ q.Qtype = dns.TypeAAAA) ∧
        q.Name.getLast? = some '.' ∧ ¬ ("..".toList <:+: q.Name) ∧
        lib.IsFqdn q.Name = false ∧ lib.IsSubDomain zone q.Name = true →
        checkRequest lib zone r = some false) ∧
      (q.Qclass = dns.ClassINET ∧ (q.Qtype = dns.TypeA ∨ q.Qtype = dns.TypeAAAA) ∧
        q.Name.getLast? = some '.' ∧ ¬ ("..".toList <:+: q.Name) ∧
        lib.IsFqdn q.Name = true ∧ lib.IsSubDomain zone q.Name = false →
        checkRequest lib zone r = some false)) := by
  refine ⟨checkRequest_true_iff lib zone r, checkRequest_not_single lib zone r, ?_⟩
  intro q hq
  refine ⟨?_, ?_, ?_, ?_, ?_, ?_⟩
  · rintro ⟨h1, _, h3, _, _, _⟩
    exact checkRequest_false_of_invalid lib zone r q hq (name_ne_nil_of_last _ _ h3)
      (not_valid_of_single lib zone r q hq (fun hv => h1 hv.1))
  · rintro ⟨_, h2, h3, _, _, _⟩
    exact checkRequest_false_of_invalid lib zone r q hq (name_ne_nil_of_last _ _ h3)
      (not_valid_of_single lib zone r q hq (fun hv => h2 hv.2.1))
  · rintro ⟨_, _, h3, _, h5, _⟩
    have hne : q.Name ≠ [] := by
      intro he
      rw [he, hfq] at h5
      exact Bool.false_ne_true h5
    exact checkRequest_false_of_invalid lib zone r q hq hne
      (not_valid_of_single lib zone r q hq (fun hv => h3 hv.2.2.1))
  · rintro ⟨_, _, h3, h4, _, _⟩
    exact checkRequest_false_of_invalid lib zone r q hq (name_ne_nil_of_last _ _ h3)
      (not_valid_of_single lib zone r q hq (fun hv => hv.2.2.2.1 h4))
  · rintro ⟨_, _, h3, _, h5, _⟩
    exact checkRequest_false_of_invalid lib zone r q hq (name_ne_nil_of_last _ _ h3)
      (not_valid_of_single lib zone r q hq (fun hv => by
        rw [hv.2.2.2.2.1] at h5; exact Bool.noConfusion h5))
  · rintro ⟨_, _, h3, _, _, h6⟩
    exact checkRequest_false_of_invalid lib zone r q hq (name_ne_nil_of_last _ _ h3)
      (not_valid_of_single lib zone r q hq (fun hv => by
        rw [hv.2.2.2.2.2] at h6; exact Bool.noConfusion h6))

/-- The library instance refuses the empty name, and the request of the test case
"Valid request", whose name is the zone itself, meets the seven conditions and is
let through. -/
theorem checkRequest_spec_witness :
    miekg.IsFqdn [] = false ∧
    ValidRequest miekg "zonetest.zone.tld.".toList (query "zonetest.zone.tld.".toList dns.TypeA) ∧
    checkRequest miekg "zonetest.zone.tld.".toList (query "zonetest.zone.tld.".toList dns.TypeA)
      = some true :=
  have hv : ValidRequest miekg "zonetest.zone.tld.".toList
      (query "zonetest.zone.tld.".toList dns.TypeA) :=
    ⟨⟨"zonetest.zone.tld.".toList, dns.TypeA, dns.ClassINET⟩, rfl, rfl, Or.inl rfl, by decide,
      by decide, by decide, by decide⟩
  ⟨rfl, hv, (checkRequest_spec miekg rfl _ _).1.mpr hv⟩

/-- C10: on the message whose single question, of class IN and type A, has the
empty name, `checkRequest` does not return: the index `len(Name)-1` of line 156 is
-1 and the call panics.  On every message with one question whose name is not
empty it returns a boolean, and that boolean is `false` when the name does not end
with a dot. -/
theorem checkRequest_empty_name_panics (lib : DnsLib) (zone : GoString) :
    checkRequest lib zone (query [] dns.TypeA) = none ∧
    (∀ r q, r.Question = [q] → q.Name ≠ [] → ∃ b, checkRequest lib zone r = some b) ∧
    (∀ r q, r.Question = [q] → q.Name ≠ [] → q.Name.getLast? ≠ some '.' →
      checkRequest lib zone r = some false) := by
  refine ⟨rfl, ?_, ?_⟩
  · intro r q hq hne
    by_cases hv : ValidRequest lib zone r
    · exact ⟨true, (checkRequest_true_iff lib zone r).mpr hv⟩
    · exact ⟨false, checkRequest_false_of_invalid lib zone r q hq hne hv⟩
  · intro r q hq hne hlast
    exact checkRequest_false_of_invalid lib zone r q hq hne
      (not_valid_of_single lib zone r q hq (fun hv => hlast hv.2.2.1))

/-- C7: the name `<script>.zonetest.zone.tld.` holds the bytes `<` and `>`,
`checkRequest` lets it through, and `handleDNS` makes
`<script>.zonetest.zone.tld` a key of the registry.  `checkRequest` has no check
on the bytes of a label; the name of the test case "Invalid request - malicious
attempt" is refused for lying outside the zone. -/
theorem checkRequest_markup_accepted :
    '<' ∈ "<script>.zonetest.zone.tld.".toList ∧ '>' ∈ "<script>.zonetest.zone.tld.".toList ∧
    checkRequest miekg defaultConfig.zone (query "<script>.zonetest.zone.tld.".toList dns.TypeA)
      = some true ∧
    (handleDNS miekg defaultConfig true "127.127.127.127".toList
      (query "<script>.zonetest.zone.tld.".toList dns.TypeA) State.init).map
        (fun p => p.1.dnsClients)
      = some [("<script>.zonetest.zone.tld".toList, "127.127.127.127".toList)] := by
  decide

/-! ## The responder -/

/-- C4: a query that the rate limiter denies, or for which `checkRequest` returns
`false`, gets the failure reply, and the registry and both counters are as
before. -/
theorem handleDNS_denied_unchanged (lib : DnsLib) (cfg : Config) (allow : Bool)
    (remoteAddr : GoString) (r : dns.Msg) (st : State)
    (h : allow = false ∨ checkRequest lib cfg.zone r = some false) :
    handleDNS lib cfg allow remoteAddr r st = some (st, dns.HandleFailed r) ∧
    (dns.HandleFailed r).Rcode = dns.RcodeServerFailure := by
  refine ⟨?_, rfl⟩
  unfold handleDNS
  rcases h with h | h
  · simp [h]
  · cases allow <;> simp [h]

/-- The query for `example.com.`, a name outside the zone, is admitted by the
limiter and refused by `checkRequest`: the reply is the failure reply and a
registry with one entry is left as it was. -/
theorem handleDNS_denied_unchanged_witness :
    (true = false ∨ checkRequest miekg defaultConfig.zone
      (query "example.com.".toList dns.TypeA) = some false) ∧
    handleDNS miekg defaultConfig true "127.127.127.127".toList
      (query "example.com.".toList dns.TypeA)
      { dnsClients := [("a.zonetest.zone.tld".toList, "10.0.0.1".toList)],
        uniqueIPs := 1, totalRequests := 1 }
      = some ({ dnsClients := [("a.zonetest.zone.tld".toList, "10.0.0.1".toList)],
                uniqueIPs := 1, totalRequests := 1 },
              dns.HandleFailed (query "example.com.".toList dns.TypeA)) :=
  ⟨Or.inr (by decide),
    (handleDNS_denied_unchanged miekg defaultConfig true "127.127.127.127".toList
      (query "example.com.".toList dns.TypeA) _ (Or.inr (by decide))).1⟩

theorem Clients.get_set_same (m : Clients) (k v : GoString) : (m.set k v).get k = some v := by
  induction m with
  | nil => simp [Clients.set, Clients.get]
  | cons e t ih =>
    obtain ⟨k1, v1⟩ := e
    by_cases h : k1 = k
    · simp [Clients.set, Clients.get, h]
    · simp [Clients.set, Clients.get, h, ih]

theorem strings.Split_ne_nil (s : GoString) (sep : Char) : strings.Split s sep ≠ [] := by
  cases s with
  | nil => simp [strings.Split]
  | cons c t =>
    unfold strings.Split
    split_ifs
    · simp
    · split <;> simp

theorem strings.Split_head (s : GoString) (sep : Char) :
    (strings.Split s sep).get? 0 = some (s.takeWhile (fun c => c ≠ sep)) := by
  induction s with
  | nil => simp [strings.Split]
  | cons c t ih =>
    unfold strings.Split
    by_cases h : c = sep
    · simp [h]
    · simp only [h, if_false]
      cases hs : strings.Split t sep with
      | nil => exact absurd hs (strings.Split_ne_nil t sep)
      | cons a l =>
        rw [hs] at ih
        simp only [List.get?_cons_zero, Option.some.injEq] at ih
        simp [List.takeWhile, h, ih]

theorem remoteIP_eq (remoteAddr : GoString) :
    remoteIP remoteAddr = some (remoteAddr.takeWhile (fun c => c ≠ ':')) :=
  strings.Split_head remoteAddr ':'

theorem takeWhile_no_colon (s rest : GoString) (hs : ':' ∉ s) :
    (s ++ ':' :: rest).takeWhile (fun c => c ≠ ':') = s := by
  induction s with
  | nil => simp [List.takeWhile]
  | cons c t ih =>
    have hc : c ≠ ':' := fun h => hs (by simp [h])
    have ht : ':' ∉ t := fun h => hs (by simp [h])
    have ih1 := ih ht
    simp only [ne_eq, decide_not] at ih1
    simp [List.takeWhile, hc, ih1]

theorem takeWhile_no_colon_bare (s : GoString) (hs : ':' ∉ s) :
    s.takeWhile (fun c => c ≠ ':') = s := by
  induction s with
  | nil => simp [List.takeWhile]
  | cons c t ih =>
    have hc : c ≠ ':' := fun h => hs (by simp [h])
    have ht : ':' ∉ t := fun h => hs (by simp [h])
    have ih1 := ih ht
    simp only [ne_eq, decide_not] at ih1
    simp only [List.takeWhile, ne_eq, hc, not_false_eq_true, decide_True, decide_not, ih1]

theorem remoteIP_of_peer (s remoteAddr : GoString) (h : PeerOf s remoteAddr) :
    remoteIP remoteAddr = some s := by
  rw [remoteIP_eq]
  obtain ⟨hs, h | ⟨port, h⟩⟩ := h
  · rw [h, takeWhile_no_colon_bare s hs]
  · rw [h, takeWhile_no_colon s port hs]

theorem question_of_check (lib : DnsLib) (zone : GoString) (r : dns.Msg)
    (hc : checkRequest lib zone r = some true) :
    ∃ q, r.Question = [q] ∧ q.Name.getLast? = some '.' ∧
      (q.Qtype = dns.TypeA ∨ q.Qtype = dns.TypeAAAA) := by
  obtain ⟨q, hq, _, h2, h3, _⟩ := (checkRequest_true_iff lib zone r).mp hc
  exact ⟨q, hq, h3, h2⟩

/-- What `handleDNS` does with a query that the limiter admits and `checkRequest`
lets through. -/
theorem handleDNS_accepted (lib : DnsLib) (cfg : Config) (remoteAddr : GoString) (r : dns.Msg)
    (st : State) (q : dns.Question) (hq : r.Question = [q])
    (hc : checkRequest lib cfg.zone r = some true) :
    handleDNS lib cfg true remoteAddr r st =
      match answerRecord lib cfg q with
      | none => some ({ st with totalRequests := st.totalRequests + 1 },
          { dns.SetReply r with Authoritative := true })
      | some rr => some (record { st with totalRequests := st.totalRequests + 1 } q.Name.dropLast
          (remoteAddr.takeWhile (fun c => c ≠ ':')),
          { dns.SetReply r with Authoritative := true, Answer := [rr] }) := by
  obtain ⟨q1, hq1, hlast, _⟩ := question_of_check lib cfg.zone r hc
  rw [hq] at hq1
  injection hq1 with hq1 _
  subst hq1
  have hne : q.Name.length ≠ 0 := by
    intro h0
    rw [List.length_eq_zero.mp h0] at hlast
    simp at hlast
  have hw : withoutDot q.Name = some q.Name.dropLast := by
    simp [withoutDot, hne, List.dropLast_eq_take]
  unfold handleDNS
  simp only [hc, hq, List.get?_cons_zero, Bool.not_true, Bool.false_eq_true, if_false]
  cases answerRecord lib cfg q with
  | none => rfl
  | some rr => simp [hw, remoteIP_eq, dns.SetReply]

/-- C2, as the claim states it, fails: with the configured address `not-an-ip`
the A query for `abc123.zonetest.zone.tld.` is admitted and valid, no record can
be built for it, nothing is written to the registry, and the lookup of the host
finds nothing. -/
theorem lookup_after_failed_record :
    checkRequest miekg defaultConfig.zone (query "abc123.zonetest.zone.tld.".toList dns.TypeA)
      = some true ∧
    (handleDNS miekg { defaultConfig with serverAddr := "not-an-ip".toList } true
      "127.127.127.127".toList (query "abc123.zonetest.zone.tld.".toList dns.TypeA)
      State.init).map (fun p => handleHTTPDns true "abc123.zonetest.zone.tld".toList p.1)
      = some HTTPResponse.NotFound := by
  decide

/-- C2, amended: from any registry state, after `handleDNS` has processed an
admitted, valid query for the name `h.` whose answer record was built, sent by a
peer whose address `s1` holds no colon, the lookup of `handleHTTPDns` with
`Host = h` returns `s1`; and after a second such query for the same name from the
address `s2` it returns `s2`. -/
theorem lookup_after_handleDNS (lib : DnsLib) (cfg : Config) (st : State)
    (h s1 s2 peer1 peer2 : GoString) (r1 r2 : dns.Msg) (q1 q2 : dns.Question) (rr1 rr2 : dns.RR)
    (hq1 : r1.Question = [q1]) (hn1 : q1.Name = h ++ ['.'])
    (hc1 : checkRequest lib cfg.zone r1 = some true)
    (ha1 : answerRecord lib cfg q1 = some rr1) (hp1 : PeerOf s1 peer1)
    (hq2 : r2.Question = [q2]) (hn2 : q2.Name = h ++ ['.'])
    (hc2 : checkRequest lib cfg.zone r2 = some true)
    (ha2 : answerRecord lib cfg q2 = some rr2) (hp2 : PeerOf s2 peer2) :
    ∃ st1 m1, handleDNS lib cfg true peer1 r1 st = some (st1, m1) ∧
      handleHTTPDns true h st1 = HTTPResponse.OK s1 ∧
      ∃ st2 m2, handleDNS lib cfg true peer2 r2 st1 = some (st2, m2) ∧
        handleHTTPDns true h st2 = HTTPResponse.OK s2 := by
  have e1 := remoteIP_of_peer s1 peer1 hp1
  have e2 := remoteIP_of_peer s2 peer2 hp2
  rw [remoteIP_eq] at e1 e2
  injection e1 with e1
  injection e2 with e2
  simp only [ne_eq, decide_not] at e1 e2
  have E1 := handleDNS_accepted lib cfg peer1 r1 st q1 hq1 hc1
  rw [ha1] at E1
  refine ⟨_, _, E1, ?_, ?_⟩
  · simp [handleHTTPDns, record, hn1, e1, Clients.get_set_same]
  · have E2 := handleDNS_accepted lib cfg peer2 r2
      (record { st with totalRequests := st.totalRequests + 1 } q1.Name.dropLast
        (peer1.takeWhile (fun c => c ≠ ':'))) q2 hq2 hc2
    rw [ha2] at E2
    refine ⟨_, _, E2, ?_⟩
    simp [handleHTTPDns, record, hn2, e2, Clients.get_set_same]

/-- The example of the specification: the A query for `abc123.zonetest.zone.tld.`
from the peer `127.127.127.127`, then the same query from `198.51.100.7:53124`,
with the default configuration and an empty registry. -/
theorem lookup_after_handleDNS_witness :
    ∃ st1 m1, handleDNS miekg defaultConfig true "127.127.127.127".toList
        (query "abc123.zonetest.zone.tld.".toList dns.TypeA) State.init = some (st1, m1) ∧
      handleHTTPDns true "abc123.zonetest.zone.tld".toList st1
        = HTTPResponse.OK "127.127.127.127".toList ∧
      ∃ st2 m2, handleDNS miekg defaultConfig true "198.51.100.7:53124".toList
          (query "abc123.zonetest.zone.tld.".toList dns.TypeA) st1 = some (st2, m2) ∧
        handleHTTPDns true "abc123.zonetest.zone.tld".toList st2
          = HTTPResponse.OK "198.51.100.7".toList :=
  lookup_after_handleDNS miekg defaultConfig State.init "abc123.zonetest.zone.tld".toList
    "127.127.127.127".toList "198.51.100.7".toList "127.127.127.127".toList
    "198.51.100.7:53124".toList
    (query "abc123.zonetest.zone.tld.".toList dns.TypeA)
    (query "abc123.zonetest.zone.tld.".toList dns.TypeA)
    ⟨"abc123.zonetest.zone.tld.".toList, dns.TypeA, dns.ClassINET⟩
    ⟨"abc123.zonetest.zone.tld.".toList, dns.TypeA, dns.ClassINET⟩
    ⟨"abc123.zonetest.zone.tld.".toList, dns.TypeA, dns.ClassINET, 60, "192.0.2.1".toList⟩
    ⟨"abc123.zonetest.zone.tld.".toList, dns.TypeA, dns.ClassINET, 60, "192.0.2.1".toList⟩
    rfl (by decide) (by decide) (by decide) ⟨by decide, Or.inl rfl⟩
    rfl (by decide) (by decide) (by decide) ⟨by decide, Or.inr ⟨"53124".toList, by decide⟩⟩

/-- C5, as the claim states it, fails: with the configured TTL -1 the A query for
`abc123.zonetest.zone.tld.` is admitted and valid, the text
`abc123.zonetest.zone.tld. -1 IN A 192.0.2.1` is no record, and the reply that
is sent has an empty answer section. -/
theorem handleDNS_reply_without_answer :
    checkRequest miekg defaultConfig.zone (query "abc123.zonetest.zone.tld.".toList dns.TypeA)
      = some true ∧
    recordText "abc123.zonetest.zone.tld.".toList (-1) "A".toList defaultConfig.serverAddr
      = "abc123.zonetest.zone.tld. -1 IN A 192.0.2.1".toList ∧
    (handleDNS miekg { defaultConfig with ttl := -1 } true "127.127.127.127".toList
      (query "abc123.zonetest.zone.tld.".toList dns.TypeA) State.init).map
        (fun p => (p.2.Authoritative, p.2.Answer))
      = some (true, []) := by
  decide

/-- C5, amended: for every admitted, valid query with the question name `N`,
`handleDNS` sends a reply that is marked authoritative.  When the answer record is
built, the answer section of the reply holds exactly one record, with owner `N`,
class IN, the type of the question, the configured TTL and the configured address
of that type (`serverAddr` for A, `serverAddrIPv6` for AAAA); when it is not
built, the answer section is empty.  The library is any that reads the record
text of this query, if at all, as the record it spells. -/
theorem handleDNS_reply (lib : DnsLib) (cfg : Config) (remoteAddr : GoString) (r : dns.Msg)
    (st : State) (q : dns.Question) (hq : r.Question = [q])
    (hc : checkRequest lib cfg.zone r = some true)
    (hA : q.Qtype = dns.TypeA →
      SpellsRecord lib q.Name cfg.ttl "A".toList dns.TypeA cfg.serverAddr)
    (hAAAA : q.Qtype = dns.TypeAAAA →
      SpellsRecord lib q.Name cfg.ttl "AAAA".toList dns.TypeAAAA cfg.serverAddrIPv6) :
    ∃ st1 m, handleDNS lib cfg true remoteAddr r st = some (st1, m) ∧
      m.Authoritative = true ∧
      (answerRecord lib cfg q = none → m.Answer = []) ∧
      (answerRecord lib cfg q ≠ none →
        ∃ rr, m.Answer = [rr] ∧ rr.Name = q.Name ∧ rr.Class = dns.ClassINET ∧
          rr.Rrtype = q.Qtype ∧ (rr.Ttl : Int) = cfg.ttl ∧
          (q.Qtype = dns.TypeA → rr.Addr = cfg.serverAddr) ∧
          (q.Qtype = dns.TypeAAAA → rr.Addr = cfg.serverAddrIPv6)) := by
  obtain ⟨q1, hq1, _, hty⟩ := question_of_check lib cfg.zone r hc
  rw [hq] at hq1
  injection hq1 with hq1 _
  subst hq1
  have hne : ¬ (dns.TypeAAAA = dns.TypeA) := by decide
  rw [handleDNS_accepted lib cfg remoteAddr r st q hq hc]
  cases hr : answerRecord lib cfg q with
  | none => exact ⟨_, _, rfl, rfl, fun _ => rfl, fun h => absurd rfl h⟩
  | some rr =>
    refine ⟨_, _, rfl, rfl, ?_, ?_⟩
    · intro h
      cases h
    intro _
    refine ⟨rr, rfl, ?_⟩
    rcases hty with ht | ht
    · have hr1 : lib.NewRR (q.Name ++ " ".toList ++ itoa cfg.ttl ++ " IN ".toList ++ "A".toList ++
          " ".toList ++ cfg.serverAddr) = some rr := by
        rw [← hr]
        simp only [answerRecord, ht, if_true, recordText]
      obtain ⟨h1, h2, h3, h4, h5⟩ := hA ht rr hr1
      exact ⟨h1, h3, by rw [h2, ht], h4, fun _ => h5, fun h => absurd (ht.symm.trans h) (Ne.symm hne)⟩
    · have hr1 : lib.NewRR (q.Name ++ " ".toList ++ itoa cfg.ttl ++ " IN ".toList ++
          "AAAA".toList ++ " ".toList ++ cfg.serverAddrIPv6) = some rr := by
        rw [← hr]
        simp only [answerRecord, ht, hne, if_true, if_false, recordText]
      obtain ⟨h1, h2, h3, h4, h5⟩ := hAAAA ht rr hr1
      exact ⟨h1, h3, by rw [h2, ht], h4, fun h => absurd (ht.symm.trans h) hne, fun _ => h5⟩

theorem miekg_spells_at (name : GoString) (ttl : Int) (ty : GoString) (code : Nat)
    (addr : GoString) (rr0 : dns.RR)
    (h0 : miekg.NewRR (name ++ " ".toList ++ itoa ttl ++ " IN ".toList ++ ty ++ " ".toList ++ addr)
      = some rr0)
    (h1 : rr0.Name = name ∧ rr0.Rrtype = code ∧ rr0.Class = dns.ClassINET ∧
      (rr0.Ttl : Int) = ttl ∧ rr0.Addr = addr) :
    SpellsRecord miekg name ttl ty code addr := by
  intro rr hrr
  rw [h0] at hrr
  injection hrr with hrr
  subst hrr
  exact h1

/-- The two requests of the test `TestHandleDNS`, with the default configuration:
the A query for `289899JJSZ.zonetest.zone.tld.` is answered, with authority, by
the one record `289899JJSZ.zonetest.zone.tld. 60 IN A 192.0.2.1`, and the AAAA
query for `792898JSNJSN.zonetest.zone.tld.` by the one record
`792898JSNJSN.zonetest.zone.tld. 60 IN AAAA 2001:db8::1`. -/
theorem handleDNS_reply_witness :
    (checkRequest miekg defaultConfig.zone
        (query "289899JJSZ.zonetest.zone.tld.".toList dns.TypeA) = some true ∧
      ∃ st1 m, handleDNS miekg defaultConfig true "127.127.127.127".toList
          (query "289899JJSZ.zonetest.zone.tld.".toList dns.TypeA) State.init = some (st1, m) ∧
        m.Authoritative = true ∧
        ∃ rr, m.Answer = [rr] ∧ rr.Name = "289899JJSZ.zonetest.zone.tld.".toList ∧
          rr.Class = dns.ClassINET ∧ rr.Rrtype = dns.TypeA ∧ (rr.Ttl : Int) = 60 ∧
          rr.Addr = "192.0.2.1".toList) ∧
    (checkRequest miekg defaultConfig.zone
        (query "792898JSNJSN.zonetest.zone.tld.".toList dns.TypeAAAA) = some true ∧
      ∃ st1 m, handleDNS miekg defaultConfig true "127.127.127.127".toList
          (query "792898JSNJSN.zonetest.zone.tld.".toList dns.TypeAAAA) State.init
            = some (st1, m) ∧
        m.Authoritative = true ∧
        ∃ rr, m.Answer = [rr] ∧ rr.Name = "792898JSNJSN.zonetest.zone.tld.".toList ∧
          rr.Class = dns.ClassINET ∧ rr.Rrtype = dns.TypeAAAA ∧ (rr.Ttl : Int) = 60 ∧
          rr.Addr = "2001:db8::1".toList) :=
  ⟨⟨by decide,
    match handleDNS_reply miekg defaultConfig "127.127.127.127".toList
      (query "289899JJSZ.zonetest.zone.tld.".toList dns.TypeA) State.init
      ⟨"289899JJSZ.zonetest.zone.tld.".toList, dns.TypeA, dns.ClassINET⟩ rfl (by decide)
      (fun _ => miekg_spells_at _ _ _ _ _
        ⟨"289899JJSZ.zonetest.zone.tld.".toList, dns.TypeA, dns.ClassINET, 60,
          "192.0.2.1".toList⟩ (by decide) (by decide))
      (fun h => absurd h (by decide)) with
    | ⟨st1, m, h1, h2, _, h4⟩ =>
      match h4 (by decide) with
      | ⟨rr, e1, e2, e3, e4, e5, e6, _⟩ => ⟨st1, m, h1, h2, rr, e1, e2, e3, e4, e5, e6 rfl⟩⟩,
   ⟨by decide,
    match handleDNS_reply miekg defaultConfig "127.127.127.127".toList
      (query "792898JSNJSN.zonetest.zone.tld.".toList dns.TypeAAAA) State.init
      ⟨"792898JSNJSN.zonetest.zone.tld.".toList, dns.TypeAAAA, dns.ClassINET⟩ rfl (by decide)
      (fun h => absurd h (by decide))
      (fun _ => miekg_spells_at _ _ _ _ _
        ⟨"792898JSNJSN.zonetest.zone.tld.".toList, dns.TypeAAAA, dns.ClassINET, 60,
          "2001:db8::1".toList⟩ (by decide) (by decide)) with
    | ⟨st1, m, h1, h2, _, h4⟩ =>
      match h4 (by decide) with
      | ⟨rr, e1, e2, e3, e4, e5, _, e7⟩ => ⟨st1, m, h1, h2, rr, e1, e2, e3, e4, e5, e7 rfl⟩⟩⟩

/-- C3: three A queries for the same host arrive from 10.0.0.1, from 10.0.0.2 and
from 10.0.0.1 again; each is admitted, valid and answered.  Two distinct source
addresses occur, and the unique-address counter ends at 3: the second query has
overwritten the only entry that held 10.0.0.1, so `isNewIP` takes it for new a
second time. -/
theorem uniqueIPs_counts_overwritten_again :
    checkRequest miekg defaultConfig.zone (query "abc123.zonetest.zone.tld.".toList dns.TypeA)
      = some true ∧
    (["10.0.0.1:40000".toList, "10.0.0.2:40000".toList, "10.0.0.1:40001".toList].filterMap
      remoteIP).dedup = ["10.0.0.2".toList, "10.0.0.1".toList] ∧
    (serveAll miekg defaultConfig
      [("10.0.0.1:40000".toList, query "abc123.zonetest.zone.tld.".toList dns.TypeA),
       ("10.0.0.2:40000".toList, query "abc123.zonetest.zone.tld.".toList dns.TypeA),
       ("10.0.0.1:40001".toList, query "abc123.zonetest.zone.tld.".toList dns.TypeA)]
      State.init)
      = some { dnsClients := [("abc123.zonetest.zone.tld".toList, "10.0.0.1".toList)],
               uniqueIPs := 3, totalRequests := 3 } := by
  decide

/-- C6: for the IPv6 peer `[2001:db8::1]:53000` the address written to the
registry is `[2001`, the text before the first colon, and for the bare IPv6
address `2001:db8::1` it is `2001`; for the IPv4 peer `192.0.2.7:53000` it is
`192.0.2.7`. -/
theorem handleDNS_records_ipv6_prefix :
    (handleDNS miekg defaultConfig true "[2001:db8::1]:53000".toList
      (query "abc123.zonetest.zone.tld.".toList dns.TypeAAAA) State.init).map
        (fun p => p.1.dnsClients)
      = some [("abc123.zonetest.zone.tld".toList, "[2001".toList)] ∧
    (handleDNS miekg defaultConfig true "2001:db8::1".toList
      (query "abc123.zonetest.zone.tld.".toList dns.TypeAAAA) State.init).map
        (fun p => p.1.dnsClients)
      = some [("abc123.zonetest.zone.tld".toList, "2001".toList)] ∧
    (handleDNS miekg defaultConfig true "192.0.2.7:53000".toList
      (query "abc123.zonetest.zone.tld.".toList dns.TypeAAAA) State.init).map
        (fun p => p.1.dnsClients)
      = some [("abc123.zonetest.zone.tld".toList, "192.0.2.7".toList)] := by
  decide

/-! ## Process start -/

/-- C8: with an empty environment and the command line `-burstSize 50
-maxRequestsPerSecond 100`, the variables hold 50 and 100 after start and the
limiter has capacity 5 and rate 10: it was made in `init`, before `flag.Parse`.
Without these flags, for every environment, the capacity of the limiter is the
variable `burstSize` and its rate is `maxRequestsPerSecond` converted to
`float64`, which is `maxRequestsPerSecond` itself up to 2^53 in absolute value;
`BURST_SIZE=7` gives capacity 7, and `MAX_REQUESTS_PER_SECOND=9007199254740993`
gives the rate 9007199254740992. -/
theorem rateLimiter_ignores_flags :
    startup (fun _ => none) { maxRequestsPerSecond := some 100, burstSize := some 50 }
      = { maxRequestsPerSecond := 100, burstSize := 50,
          rateLimiter := { limit := 10, burst := 5 } } ∧
    (∀ env : Environ,
      (startup env { maxRequestsPerSecond := none, burstSize := none }).rateLimiter.burst
        = (startup env { maxRequestsPerSecond := none, burstSize := none }).burstSize ∧
      (startup env { maxRequestsPerSecond := none, burstSize := none }).rateLimiter.limit
        = rate.Limit
            (startup env { maxRequestsPerSecond := none, burstSize := none }).maxRequestsPerSecond ∧
      ((startup env { maxRequestsPerSecond := none, burstSize := none }).maxRequestsPerSecond.natAbs
          ≤ 2 ^ 53 →
        (startup env { maxRequestsPerSecond := none, burstSize := none }).rateLimiter.limit
          = (startup env { maxRequestsPerSecond := none, burstSize := none }).maxRequestsPerSecond)) ∧
    startup (fun k => if k = "BURST_SIZE".toList then some "7".toList else none)
        { maxRequestsPerSecond := none, burstSize := none }
      = { maxRequestsPerSecond := 10, burstSize := 7, rateLimiter := { limit := 10, burst := 7 } } ∧
    startup (fun k => if k = "MAX_REQUESTS_PER_SECOND".toList then some "9007199254740993".toList
          else none)
        { maxRequestsPerSecond := none, burstSize := none }
      = { maxRequestsPerSecond := 9007199254740993, burstSize := 5,
          rateLimiter := { limit := 9007199254740992, burst := 5 } } := by
  refine ⟨by decide, fun env => ⟨rfl, rfl, fun h => ?_⟩, by decide, by decide⟩
  exact if_pos h

/-! ## Concurrent responders -/

/-- The three steps of a worker, taken with no other worker in between, do to the
state what lines 207-214 do in `handleDNS`. -/
theorem Worker.steps_eq_record (host ip : GoString) (st : State) :
    let c1 := (Worker.start host ip).step st
    let c2 := c1.1.step c1.2
    let c3 := c2.1.step c2.2
    c3.2 = record st host ip ∧ c3.1.pc = Pc.done := by
  simp only [Worker.start, Worker.step, record]
  cases isNewIP st.dnsClients ip <;> simp

/-- C9: two calls of `handleDNS` record the same address 203.0.113.9, which the
registry does not hold yet.  When each calls `isNewIP` before the other has
written, both find the address new and the counter ends at 2; when one call runs
to its end before the other starts, the counter ends at 1. -/
theorem uniqueIPs_race_counts_twice :
    runSchedule [false, true, false, true, false, true]
      (Worker.start "a.zonetest.zone.tld".toList "203.0.113.9".toList,
       Worker.start "b.zonetest.zone.tld".toList "203.0.113.9".toList, State.init)
      = ({ host := "a.zonetest.zone.tld".toList, ip := "203.0.113.9".toList, pc := Pc.done,
           isNew := true },
         { host := "b.zonetest.zone.tld".toList, ip := "203.0.113.9".toList, pc := Pc.done,
           isNew := true },
         { dnsClients := [("a.zonetest.zone.tld".toList, "203.0.113.9".toList),
                          ("b.zonetest.zone.tld".toList, "203.0.113.9".toList)],
           uniqueIPs := 2, totalRequests := 0 }) ∧
    (runSchedule [false, false, false, true, true, true]
      (Worker.start "a.zonetest.zone.tld".toList "203.0.113.9".toList,
       Worker.start "b.zonetest.zone.tld".toList "203.0.113.9".toList, State.init)).2.2.uniqueIPs
      = 1 := by
  decide
